import Mathlib

/-!
Shallow embedding of the study-assistant chat agent (`src/server.ts`, class `Chat`),
its SQLite-backed tables, and the plan-then-execute scheduler, together with proofs
about the behaviour claimed in the specification.

Modelling conventions:
* JS numbers are modelled as exact rationals (`ℚ`) where fractional arithmetic
  occurs and as `ℤ`/`ℕ` elsewhere; `Math.round` is `jsRound` (half toward +∞).
* JS strings are modelled as `String`; the string algorithms of the source
  (`split`, `startsWith`, `parseInt`, regex replaces, `JSON.parse`) are modelled
  by structural functions over `List Char` so that everything evaluates.
* The SQLite tables owned by the Durable Object are fields of the `Chat`
  structure; `this.messages` and the durable schedule queue are modelled as
  lists.  Timestamps (`CURRENT_TIMESTAMP`, `new Date()`) are an abstract `now : ℕ`
  threaded through the writers; the quiz ledger is kept in insertion order and
  `ORDER BY quiz_date DESC` is modelled as reverse insertion order.
* External inference calls (`env.AI.run`) are oracles: their outcome is an
  explicit argument of the function that awaits them.
* A thrown JS exception is `Except.error (message, state-at-throw)`, so a caller
  can observe exactly which writes had already happened when the throw occurred.
-/

namespace StudyAgent

/-- Models JS `Math.round` on exact rationals: nearest integer, halves toward +∞. -/
def jsRound (x : ℚ) : ℤ := (x + 1/2).floor

/-- Whitespace test used by the char-level models of JS string functions. -/
def isWs (c : Char) : Bool := c == ' ' || c == '\t' || c == '\n' || c == '\r'

/-- Models `[...new Set(xs)]`: removes duplicates keeping first occurrences in order. -/
def jsSetDedup (xs : List String) : List String :=
  xs.foldl (fun acc x => if acc.contains x then acc else acc ++ [x]) []

/-- Models JS `String.prototype.split(sep)` for a one-character separator. -/
def charSplit (sep : Char) : List Char → List (List Char)
  | [] => [[]]
  | c :: cs =>
    let r := charSplit sep cs
    if c == sep then [] :: r
    else
      match r with
      | [] => [[c]]
      | h :: t => (c :: h) :: t

/-- Digit run to a natural number (the digits are already validated). -/
def digitsToNat (ds : List Char) : Nat :=
  ds.foldl (fun n c => n * 10 + (c.toNat - '0'.toNat)) 0

/-- Models JS `parseInt(s, 10)`: skip leading whitespace, optional sign, then the
longest digit prefix; no digits means `NaN`, modelled as `none`. -/
def jsParseInt (cs : List Char) : Option Int :=
  let t := cs.dropWhile isWs
  match t with
  | '-' :: rest =>
    let ds := rest.takeWhile Char.isDigit
    if ds.isEmpty then none else some (-(Int.ofNat (digitsToNat ds)))
  | '+' :: rest =>
    let ds := rest.takeWhile Char.isDigit
    if ds.isEmpty then none else some (Int.ofNat (digitsToNat ds))
  | _ =>
    let ds := t.takeWhile Char.isDigit
    if ds.isEmpty then none else some (Int.ofNat (digitsToNat ds))

/-- Case-insensitive prefix test (models a `/^.../i` regex match at the start). -/
def isCiPrefix : List Char → List Char → Bool
  | [], _ => true
  | _ :: _, [] => false
  | p :: ps, c :: cs => (p.toLower == c.toLower) && isCiPrefix ps cs

/-- The opening brace character (ASCII 123). -/
def lbrace : Char := Char.ofNat 123

/-- The closing brace character (ASCII 125). -/
def rbrace : Char := Char.ofNat 125

/-- JSON values, as produced by the model of `JSON.parse`. -/
inductive Json where
  | null : Json
  | bool (b : Bool) : Json
  | num (raw : String) : Json
  | str (s : String) : Json
  | arr (elems : List Json) : Json
  | obj (fields : List (String × Json)) : Json
deriving Inhabited

/-- Standard JSON escape characters; `\u` sequences are handled by the caller. -/
def unescapeChar (e : Char) : Char :=
  if e == 'n' then '\n'
  else if e == 't' then '\t'
  else if e == 'r' then '\r'
  else if e == 'b' then Char.ofNat 8
  else if e == 'f' then Char.ofNat 12
  else e

/-- Parses a JSON string body (after the opening quote), fuel-bounded so that the
recursion is structural.  `\uXXXX` escapes are approximated by `?`; none of the
inputs relevant to the claims contain them. -/
def parseJsonStringAux : Nat → List Char → List Char → Option (String × List Char)
  | 0, _, _ => none
  | _ + 1, _, [] => none
  | fuel + 1, acc, c :: rest =>
    if c == '"' then some (String.mk acc.reverse, rest)
    else if c == '\\' then
      match rest with
      | [] => none
      | e :: rest2 =>
        if e == 'u' then parseJsonStringAux fuel ('?' :: acc) (rest2.drop 4)
        else parseJsonStringAux fuel (unescapeChar e :: acc) rest2
    else parseJsonStringAux fuel (c :: acc) rest

/-- Lexes a JSON number liberally (sign, digits, dot, exponent characters); the
numeric value is kept as its raw text, which is all the agent ever needs. -/
def parseJsonNumber (cs : List Char) : Option (Json × List Char) :=
  let ds := cs.takeWhile (fun c => c.isDigit || c == '-' || c == '+' || c == '.' || c == 'e' || c == 'E')
  if ds.isEmpty then none else some (.num (String.mk ds), cs.drop ds.length)

/-- Fuel-bounded model of the recursive descent inside `JSON.parse`.  Arrays and
objects parse their first element and then re-enter the same case on the
reconstructed remainder, keeping the recursion structural in the fuel. -/
def parseJsonValue : Nat → List Char → Option (Json × List Char)
  | 0, _ => none
  | fuel + 1, cs0 =>
    let cs := cs0.dropWhile isWs
    if List.isPrefixOf ("true".toList) cs then some (.bool true, cs.drop 4)
    else if List.isPrefixOf ("false".toList) cs then some (.bool false, cs.drop 5)
    else if List.isPrefixOf ("null".toList) cs then some (.null, cs.drop 4)
    else
      match cs with
      | [] => none
      | c :: rest =>
        if c == '"' then
          match parseJsonStringAux (fuel + 1) [] rest with
          | some (s, r) => some (.str s, r)
          | none => none
        else if c == '[' then
          match rest.dropWhile isWs with
          | ']' :: r2 => some (.arr [], r2)
          | r1 =>
            match parseJsonValue fuel r1 with
            | none => none
            | some (e, r2) =>
              match r2.dropWhile isWs with
              | ',' :: r3 =>
                match r3.dropWhile isWs with
                | ']' :: _ => none
                | _ =>
                  match parseJsonValue fuel ('[' :: r3) with
                  | some (.arr es, r4) => some (.arr (e :: es), r4)
                  | _ => none
              | ']' :: r3 => some (.arr [e], r3)
              | _ => none
        else if c == lbrace then
          match rest.dropWhile isWs with
          | [] => none
          | x :: r2 =>
            if x == rbrace then some (.obj [], r2)
            else if x == '"' then
              match parseJsonStringAux (fuel + 1) [] r2 with
              | none => none
              | some (key, r3) =>
                match r3.dropWhile isWs with
                | ':' :: r4 =>
                  match parseJsonValue fuel r4 with
                  | none => none
                  | some (v, r5) =>
                    match r5.dropWhile isWs with
                    | ',' :: r6 =>
                      match parseJsonValue fuel (lbrace :: '"' :: r6) with
                      | some (.obj fs, r7) => some (.obj ((key, v) :: fs), r7)
                      | _ => none
                    | y :: r6 =>
                      if y == rbrace then some (.obj [(key, v)], r6) else none
                    | _ => none
                | _ => none
            else none
        else if c.isDigit || c == '-' then parseJsonNumber cs
        else none

/-- Models `JSON.parse`: the whole input (up to trailing whitespace) must be one value. -/
def jsonParse (s : String) : Option Json :=
  let cs := s.toList
  match parseJsonValue (cs.length + 2) cs with
  | some (j, rest) => if (rest.dropWhile isWs).isEmpty then some j else none
  | none => none

/-- The source casts a parsed JSON array to `string[]` without converting its
elements; only string elements (and the list length) ever matter to the claims,
other values are represented by a printed form. -/
def jsonAsString : Json → String
  | .str s => s
  | .num raw => raw
  | .bool b => if b then "true" else "false"
  | .null => "null"
  | .arr _ => "(array)"
  | .obj _ => "(object)"

/-- Models the regex match `/\[[\s\S]*?\]/`: the leftmost, lazily-extended
bracketed substring — from the first `[` to the first `]` after it. -/
def firstBracketedSubstring (s : String) : Option String :=
  let cs := s.toList
  match cs.findIdx? (· == '[') with
  | none => none
  | some p =>
    match (cs.drop (p + 1)).findIdx? (· == ']') with
    | none => none
    | some k => some (String.mk ((cs.drop p).take (k + 2)))

/-! ## Data model: the Durable Object's SQLite tables and in-memory fields -/

/-- A row of the `user_profile` table (`id = 1` row; the id is implicit). -/
structure UserProfileRow where
  name : Option String := none
  major : Option String := none
  year : Option String := none
  preferred_learning_methods : Option (List String) := none
deriving Repr, DecidableEq

/-- A row of the `session_preferences` table (`id = 1` row). -/
structure SessionPreferencesRow where
  goal : Option String := none
  learn_topic : Option String := none
  learn_concept : Option String := none
  exam_name : Option String := none
  exam_depth : Option String := none
  exam_time_left : Option String := none
  quiz_topic : Option String := none
  quiz_num_questions : Option Int := none
  quiz_type : Option String := none
  quiz_hints_allowed : Option Bool := none
  onboarding_complete : Option Bool := some false
deriving Repr, DecidableEq

/-- A row of the `knowledge` table.  `weak_areas` holds the JSON-decoded list
(the column stores its `JSON.stringify`); the autoincrement id is not modelled. -/
structure KnowledgeRow where
  subject : String := ""
  topic : String := ""
  mastery_level : Int := 0
  confidence : Int := 0
  times_studied : Int := 0
  times_quizzed : Int := 0
  last_studied : Option Nat := none
  last_quizzed : Option Nat := none
  weak_areas : Option (List String) := none
  notes : Option String := none
deriving Repr, DecidableEq

/-- A row of the append-only `quiz_history` ledger.  `quiz_date` is the abstract
timestamp; rows are stored in insertion order and timestamps never decrease. -/
structure QuizRow where
  subject : String := ""
  topic : Option String := none
  quiz_type : String := "mixed"
  score : Int := 0
  total_questions : Int := 0
  correct_answers : Int := 0
  missed_concepts : Option (List String) := none
  time_spent_seconds : Option Int := none
  hints_used : Int := 0
  quiz_date : Nat := 0
deriving Repr, DecidableEq

/-- A row of the `study_sessions` table. -/
structure StudySessionRow where
  session_type : String := "learn"
  subject : Option String := none
  topic : Option String := none
  duration_minutes : Option Int := none
  summary : Option String := none
  started_at : Nat := 0
  ended_at : Option Nat := none
deriving Repr, DecidableEq

/-- The `Chat` Durable Object.  The first four fields are the private in-memory
class fields holding plan progress (their `:=` defaults are the class-field
initializers); the remaining fields model durable state: the SQLite tables,
the persisted chat transcript (`this.messages`, text parts only) and the queue
of durable scheduled continuations (delay, payload). -/
structure Chat where
  planSteps : List String := []
  stepResults : List String := []
  originalPrompt : String := ""
  isProcessingPlan : Bool := false
  userProfile : Option UserProfileRow := none
  sessionPreferences : Option SessionPreferencesRow := none
  knowledge : List KnowledgeRow := []
  quizHistory : List QuizRow := []
  studySessions : List StudySessionRow := []
  messages : List String := []
  schedules : List (Nat × String) := []
deriving Repr, DecidableEq

/-- A process restart: the Durable Object is re-instantiated, so every private
class field reverts to its initializer, while SQLite tables, saved messages and
durable schedules persist. -/
def restart (st : Chat) : Chat :=
  { st with planSteps := [], stepResults := [], originalPrompt := "", isProcessingPlan := false }

/-- A thrown JS exception, carrying the message and the state at the throw point. -/
abbrev Thrown := String × Chat

instance {ε α : Type} [DecidableEq ε] [DecidableEq α] : DecidableEq (Except ε α) := fun x y =>
  match x, y with
  | .ok a, .ok b =>
    if h : a = b then isTrue (by rw [h]) else isFalse (by intro hh; cases hh; exact h rfl)
  | .error a, .error b =>
    if h : a = b then isTrue (by rw [h]) else isFalse (by intro hh; cases hh; exact h rfl)
  | .ok _, .error _ => isFalse (by intro hh; cases hh)
  | .error _, .ok _ => isFalse (by intro hh; cases hh)

/-- `Object.values(Goal)` from `types.ts`. -/
def goalValues : List String := ["learn", "exam", "quiz"]

/-- `Object.values(ExamDepth)` from `types.ts`. -/
def examDepthValues : List String := ["overview", "moderate", "deep"]

/-- `Object.values(QuizType)` from `types.ts`. -/
def quizTypeValues : List String := ["multiple_choice", "free_response", "mixed"]

/-- The `validTypes` literal inside `startSession`. -/
def sessionTypeValues : List String := ["learn", "review", "quiz", "exam_prep"]

/-- The `validTypes` literal inside `resetProgress`. -/
def resetTypeValues : List String := ["all", "knowledge", "quizzes", "sessions"]

/-! ## Knowledge store -/

/-- `getTopicMastery`: the unique row keyed by (subject, topic), if any. -/
def getTopicMastery (st : Chat) (subject topic : String) : Option KnowledgeRow :=
  st.knowledge.find? (fun k => k.subject == subject && k.topic == topic)

/-- The argument object of `updateKnowledge` (absent JS fields are `none`;
the two timestamp flags are booleans defaulting to falsy). -/
structure KnowledgeUpdate where
  subject : String
  topic : String
  masteryLevel : Option Int := none
  confidence : Option Int := none
  timesStudied : Option Int := none
  timesQuizzed : Option Int := none
  lastStudied : Bool := false
  lastQuizzed : Bool := false
  weakAreas : Option (List String) := none
  notes : Option String := none
deriving Repr, DecidableEq

/-- Combined effect of the per-field conditional `UPDATE` statements in the
update branch of `updateKnowledge` on one matching row. -/
def applyKnowledgeUpdate (data : KnowledgeUpdate) (now : Nat) (k : KnowledgeRow) : KnowledgeRow :=
  { k with
    mastery_level := data.masteryLevel.getD k.mastery_level
    confidence := data.confidence.getD k.confidence
    times_studied := data.timesStudied.getD k.times_studied
    times_quizzed := data.timesQuizzed.getD k.times_quizzed
    last_studied := if data.lastStudied then some now else k.last_studied
    last_quizzed := if data.lastQuizzed then some now else k.last_quizzed
    weak_areas := data.weakAreas.or k.weak_areas
    notes := data.notes.or k.notes }

/-- The row inserted by the create branch of `updateKnowledge`. -/
def freshKnowledgeRow (data : KnowledgeUpdate) (now : Nat) : KnowledgeRow :=
  { subject := data.subject
    topic := data.topic
    mastery_level := data.masteryLevel.getD 0
    confidence := data.confidence.getD 0
    times_studied := data.timesStudied.getD 0
    times_quizzed := data.timesQuizzed.getD 0
    last_studied := if data.lastStudied then some now else none
    last_quizzed := if data.lastQuizzed then some now else none
    weak_areas := data.weakAreas
    notes := data.notes }

/-- `updateKnowledge`: upsert on the (subject, topic) key — insert a fresh row
when no row matches, otherwise run the conditional field updates on every
matching row (the `UNIQUE(subject, topic)` constraint makes it at most one). -/
def updateKnowledge (st : Chat) (data : KnowledgeUpdate) (now : Nat) : Chat :=
  match getTopicMastery st data.subject data.topic with
  | none => { st with knowledge := st.knowledge ++ [freshKnowledgeRow data now] }
  | some _ =>
    { st with
      knowledge := st.knowledge.map (fun k =>
        if k.subject == data.subject && k.topic == data.topic then
          applyKnowledgeUpdate data now k
        else k) }

/-- The `WHERE` predicate of `getWeakAreas`: low mastery or low confidence. -/
def weakPred (k : KnowledgeRow) : Bool := k.mastery_level < 60 || k.confidence < 50

/-- The `ORDER BY mastery_level ASC, confidence ASC` order of `getWeakAreas`. -/
def weakLe (a b : KnowledgeRow) : Prop :=
  a.mastery_level < b.mastery_level ∨
    (a.mastery_level = b.mastery_level ∧ a.confidence ≤ b.confidence)

instance : DecidableRel weakLe := fun a b =>
  inferInstanceAs (Decidable (a.mastery_level < b.mastery_level ∨ _))

instance : IsTotal KnowledgeRow weakLe :=
  ⟨fun a b => by
    unfold weakLe
    rcases lt_trichotomy a.mastery_level b.mastery_level with h | h | h
    · exact Or.inl (Or.inl h)
    · rcases le_total a.confidence b.confidence with hc | hc
      · exact Or.inl (Or.inr ⟨h, hc⟩)
      · exact Or.inr (Or.inr ⟨h.symm, hc⟩)
    · exact Or.inr (Or.inl h)⟩

instance : IsTrans KnowledgeRow weakLe :=
  ⟨fun a b c hab hbc => by
    unfold weakLe at *
    rcases hab with h1 | ⟨h1, h1c⟩ <;> rcases hbc with h2 | ⟨h2, h2c⟩
    · exact Or.inl (h1.trans h2)
    · exact Or.inl (h2 ▸ h1)
    · exact Or.inl (h1 ▸ h2)
    · exact Or.inr ⟨h1.trans h2, h1c.trans h2c⟩⟩

/-- `getWeakAreas`: rows with mastery < 60 or confidence < 50, sorted weakest
first by (mastery, confidence), truncated to `limit` (default 10). -/
def getWeakAreas (st : Chat) (limit : Nat := 10) : List KnowledgeRow :=
  (List.insertionSort weakLe (st.knowledge.filter weakPred)).take limit

/-! ## Quiz methods -/

/-- The argument object of `recordQuiz` (`QuizResult` in `types.ts`); the quiz
type arrives as a runtime string, which is why the function validates it. -/
structure QuizResult where
  subject : String := ""
  topic : Option String := none
  quizType : String := "mixed"
  score : Int := 0
  totalQuestions : Int := 0
  correctAnswers : Int := 0
  missedConcepts : List String := []
  timeSpentSeconds : Option Int := none
  hintsUsed : Option Int := none
deriving Repr, DecidableEq

/-- The `quiz_history` row inserted by `recordQuiz` (an empty missed-concepts
list is stored as SQL `NULL`). -/
def quizRowOf (data : QuizResult) (now : Nat) : QuizRow :=
  { subject := data.subject
    topic := data.topic
    quiz_type := data.quizType
    score := data.score
    total_questions := data.totalQuestions
    correct_answers := data.correctAnswers
    missed_concepts := if data.missedConcepts.length > 0 then some data.missedConcepts else none
    time_spent_seconds := data.timeSpentSeconds
    hints_used := data.hintsUsed.getD 0
    quiz_date := now }

/-- `recordQuiz`: validate the quiz type, append the ledger row (the schema
`CHECK (score >= 0 AND score <= 100)` throws on an out-of-range score), then —
only when a (truthy) topic was supplied — fold the result into the knowledge
table: weighted, clamped mastery and deduplicated weak-area merge when a prior
entry exists, otherwise a fresh entry at `mastery = score`.  The returned
`last_insert_rowid` of the source is not modelled. -/
def recordQuiz (st : Chat) (data : QuizResult) (now : Nat) : Except Thrown Chat :=
  if (quizTypeValues.contains data.quizType) = false then
    .error ("Invalid quizType: " ++ data.quizType ++ ". Must be one of: " ++
      String.intercalate ", " quizTypeValues, st)
  else if data.score < 0 || 100 < data.score then
    .error ("CHECK constraint failed: score", st)
  else
    let st1 : Chat := { st with quizHistory := st.quizHistory ++ [quizRowOf data now] }
    match data.topic with
    | none => .ok st1
    | some t =>
      if t == "" then .ok st1
      else
        match getTopicMastery st1 data.subject t with
        | some existing =>
          let newTimesQuizzed := existing.times_quizzed + 1
          let newMastery :=
            jsRound ((existing.mastery_level : ℚ) * (7/10) + (data.score : ℚ) * (3/10))
          let existingWeakAreas := existing.weak_areas.getD []
          let mergedWeakAreas := jsSetDedup (existingWeakAreas ++ data.missedConcepts)
          .ok (updateKnowledge st1
            { subject := data.subject
              topic := t
              masteryLevel := some (min 100 (max 0 newMastery))
              timesQuizzed := some newTimesQuizzed
              lastQuizzed := true
              weakAreas := some mergedWeakAreas } now)
        | none =>
          .ok (updateKnowledge st1
            { subject := data.subject
              topic := t
              masteryLevel := some data.score
              timesQuizzed := some 1
              lastQuizzed := true
              weakAreas := some data.missedConcepts } now)

/-- The `QuizStats` result object. -/
structure QuizStats where
  totalQuizzes : Nat := 0
  averageScore : Int := 0
  totalQuestions : Int := 0
  totalCorrect : Int := 0
  bestScore : Int := 0
  worstScore : Int := 0
  recentScores : List Int := []
  mostMissedConcepts : List String := []
deriving Repr, DecidableEq

/-- The all-zero / all-empty statistics returned on an empty history. -/
def zeroStats : QuizStats := {}

/-- The ledger rows the statistics queries range over: the whole ledger, or the
rows of one subject when a filter is given. -/
def quizRowsFor (st : Chat) (subject : Option String) : List QuizRow :=
  match subject with
  | some s => st.quizHistory.filter (fun r => r.subject == s)
  | none => st.quizHistory

/-- One step of building `conceptCounts`: a JS object keyed by concept keeps
first-insertion order, counts bump in place. -/
def bumpConcept (acc : List (String × Nat)) (c : String) : List (String × Nat) :=
  if acc.any (fun p => p.1 == c) then
    acc.map (fun p => if p.1 == c then (p.1, p.2 + 1) else p)
  else acc ++ [(c, 1)]

/-- Occurrence counts of all missed concepts in the given rows, in
first-encounter order (`Object.entries` order of the source's `conceptCounts`). -/
def conceptCounts (rows : List QuizRow) : List (String × Nat) :=
  rows.foldl (fun acc row =>
    match row.missed_concepts with
    | some cs => cs.foldl bumpConcept acc
    | none => acc) []

/-- The comparator `(a, b) => b[1] - a[1]` of the source: descending count;
JS `Array.prototype.sort` is stable, so ties keep first-encounter order. -/
def countDesc (a b : String × Nat) : Prop := b.2 ≤ a.2

instance : DecidableRel countDesc := fun a b =>
  inferInstanceAs (Decidable (b.2 ≤ a.2))

instance : IsTotal (String × Nat) countDesc := ⟨fun a b => le_total b.2 a.2⟩

instance : IsTrans (String × Nat) countDesc := ⟨fun _ _ _ h1 h2 => h2.trans h1⟩

/-- `getQuizStats`: aggregates (`COUNT`, `COALESCE(AVG/SUM/MAX/MIN, 0)`), the
last five scores newest first, and the five most frequent missed concepts over
the ten most recent ledger rows whose `missed_concepts` column is non-NULL. -/
def getQuizStats (st : Chat) (subject : Option String) : QuizStats :=
  let rows := quizRowsFor st subject
  let scores : List Int := rows.map (fun r => r.score)
  let avgScore : ℚ := if rows.length = 0 then 0 else (((scores.sum : ℤ) : ℚ) / (rows.length : ℚ))
  let recentScores := (rows.reverse.take 5).map (fun r => r.score)
  let missedConceptsRows := (rows.reverse.filter (fun r => r.missed_concepts.isSome)).take 10
  let sortedConcepts :=
    ((List.insertionSort countDesc (conceptCounts missedConceptsRows)).take 5).map (fun p => p.1)
  { totalQuizzes := rows.length
    averageScore := jsRound avgScore
    totalQuestions := (rows.map (fun r => r.total_questions)).sum
    totalCorrect := (rows.map (fun r => r.correct_answers)).sum
    bestScore := scores.max?.getD 0
    worstScore := scores.min?.getD 0
    recentScores := recentScores
    mostMissedConcepts := sortedConcepts }

/-! ## Study sessions, reset, preferences -/

/-- `startSession`: validate the session type, then insert the row (the
returned `last_insert_rowid` is not modelled). -/
def startSession (st : Chat) (sessionType : String) (subject topic : Option String)
    (now : Nat) : Except Thrown Chat :=
  if (sessionTypeValues.contains sessionType) = false then
    .error ("Invalid sessionType: " ++ sessionType ++ ". Must be one of: " ++
      String.intercalate ", " sessionTypeValues, st)
  else
    .ok { st with
      studySessions := st.studySessions ++
        [{ session_type := sessionType, subject := subject, topic := topic, started_at := now }] }

/-- `resetProgress`: validate the scope, then run the scoped `DELETE`s. -/
def resetProgress (st : Chat) (resetType : String) : Except Thrown Chat :=
  if (resetTypeValues.contains resetType) = false then
    .error ("Invalid resetType: " ++ resetType ++ ". Must be one of: " ++
      String.intercalate ", " resetTypeValues, st)
  else
    let st := if resetType == "all" || resetType == "knowledge" then
      { st with knowledge := [] } else st
    let st := if resetType == "all" || resetType == "quizzes" then
      { st with quizHistory := [] } else st
    let st := if resetType == "all" || resetType == "sessions" then
      { st with studySessions := [] } else st
    let st := if resetType == "all" then
      { st with userProfile := none, sessionPreferences := none } else st
    .ok st

/-- The argument object of `updateSessionPreferences`.  `none` is an absent
(JS `undefined`) field, `some none` an explicit `null`, `some (some v)` a value
— the enum validations skip both `undefined` and `null`. -/
structure SessionPreferencesUpdate where
  goal : Option (Option String) := none
  learnTopic : Option (Option String) := none
  learnConcept : Option (Option String) := none
  examName : Option (Option String) := none
  examDepth : Option (Option String) := none
  examTimeLeft : Option (Option String) := none
  quizTopic : Option (Option String) := none
  quizNumQuestions : Option (Option Int) := none
  quizType : Option (Option String) := none
  quizHintsAllowed : Option (Option Bool) := none
  onboardingComplete : Option (Option Bool) := none
deriving Repr, DecidableEq

/-- The supplied non-null value of an enumerated field when it lies outside the
enumeration (`undefined`/`null`/valid values give `none`). -/
def enumBad (v : Option (Option String)) (values : List String) : Option String :=
  match v with
  | some (some s) => if values.contains s then none else some s
  | _ => none

/-- `updateSessionPreferences`: validate the three enumerated fields first
(throwing before any SQL), then insert the id-1 row or update the provided
fields of the existing row. -/
def updateSessionPreferences (st : Chat) (data : SessionPreferencesUpdate) :
    Except Thrown Chat :=
  match enumBad data.goal goalValues with
  | some g =>
    .error ("Invalid goal: " ++ g ++ ". Must be one of: " ++
      String.intercalate ", " goalValues, st)
  | none =>
  match enumBad data.examDepth examDepthValues with
  | some d =>
    .error ("Invalid examDepth: " ++ d ++ ". Must be one of: " ++
      String.intercalate ", " examDepthValues, st)
  | none =>
  match enumBad data.quizType quizTypeValues with
  | some q =>
    .error ("Invalid quizType: " ++ q ++ ". Must be one of: " ++
      String.intercalate ", " quizTypeValues, st)
  | none =>
  match st.sessionPreferences with
  | none =>
    .ok { st with
      sessionPreferences := some
        { goal := data.goal.join
          learn_topic := data.learnTopic.join
          learn_concept := data.learnConcept.join
          exam_name := data.examName.join
          exam_depth := data.examDepth.join
          exam_time_left := data.examTimeLeft.join
          quiz_topic := data.quizTopic.join
          quiz_num_questions := data.quizNumQuestions.join
          quiz_type := data.quizType.join
          quiz_hints_allowed := data.quizHintsAllowed.join
          onboarding_complete := some ((data.onboardingComplete.join).getD false) } }
  | some row =>
    let row := match data.goal with | some v => { row with goal := v } | none => row
    let row := match data.learnTopic with | some v => { row with learn_topic := v } | none => row
    let row := match data.learnConcept with | some v => { row with learn_concept := v } | none => row
    let row := match data.examName with | some v => { row with exam_name := v } | none => row
    let row := match data.examDepth with | some v => { row with exam_depth := v } | none => row
    let row := match data.examTimeLeft with | some v => { row with exam_time_left := v } | none => row
    let row := match data.quizTopic with | some v => { row with quiz_topic := v } | none => row
    let row := match data.quizNumQuestions with | some v => { row with quiz_num_questions := v } | none => row
    let row := match data.quizType with | some v => { row with quiz_type := v } | none => row
    let row := match data.quizHintsAllowed with | some v => { row with quiz_hints_allowed := v } | none => row
    let row := match data.onboardingComplete with | some v => { row with onboarding_complete := v } | none => row
    .ok { st with sessionPreferences := some row }

/-! ## Plan generator -/

/-- A loosely-shaped field of the inference-service reply: an array (cast by the
source to `string[]`), a string, or anything else. -/
inductive JsValue where
  | arr (xs : List String) : JsValue
  | str (s : String) : JsValue
  | otherVal : JsValue
deriving Repr, DecidableEq

/-- The value returned by `env.AI.run`: an object carrying optional `response`
and `result` fields, a bare string, or anything else (`null`, a number, …). -/
inductive AIRunResult where
  | obj (response : Option JsValue) (result : Option JsValue) : AIRunResult
  | plainStr (s : String) : AIRunResult
  | otherResult : AIRunResult
deriving Repr, DecidableEq

/-- `parseStepsFromString`: try `JSON.parse` on the whole text — an array is
truncated to 10; a successful parse of a non-array falls straight through to
the fallback (the bracket extraction lives in the `catch`, so it runs only when
the parse threw); on a parse failure, extract the first bracketed substring and
try again; otherwise the one-element fallback plan. -/
def parseStepsFromString (text fallbackPrompt : String) : List String :=
  match jsonParse text with
  | some (.arr xs) => (xs.map jsonAsString).take 10
  | some _ => [fallbackPrompt]
  | none =>
    match firstBracketedSubstring text with
    | some sub =>
      match jsonParse sub with
      | some (.arr xs) => (xs.map jsonAsString).take 10
      | _ => [fallbackPrompt]
    | none => [fallbackPrompt]

/-- `generatePlan` (after the inference call): probe `response` as array then
string, then `result` as array then string, then the bare-string case, and fall
back to the single-step plan `[prompt]`. -/
def generatePlan (res : AIRunResult) (prompt : String) : List String :=
  match res with
  | .obj response result =>
    match response with
    | some (.arr xs) => xs.take 10
    | some (.str s) => parseStepsFromString s prompt
    | _ =>
      match result with
      | some (.arr xs) => xs.take 10
      | some (.str s) => parseStepsFromString s prompt
      | _ => [prompt]
  | .plainStr s => parseStepsFromString s prompt
  | .otherResult => [prompt]

/-! ## Topic heuristic and result combiner -/

/-- A `{ subject, topic }` pair for the knowledge graph. -/
structure TopicInfo where
  subject : String
  topic : String
deriving Repr, DecidableEq

/-- The ordered alternatives of the leading-phrase regex of
`extractTopicFromPrompt`. -/
def leadPhrases : List String :=
  ["explain", "what is", "what are", "how does", "how do", "tell me about",
   "teach me", "describe", "define", "help me understand"]

/-- The ordered alternatives of the trailing-phrase regex of
`extractTopicFromPrompt`. -/
def trailPhrases : List String :=
  ["work", "works", "in detail", "fully", "please", "for me", "to me", "step by step"]

/-- Models `.replace(/^(explain|what is|...)\s*/i, "")`: drop the first matching
alternative at the start plus following whitespace. -/
def stripLeadPhrase (cs : List Char) : List Char :=
  match leadPhrases.find? (fun p => isCiPrefix p.toList cs) with
  | some p => (cs.drop p.length).dropWhile isWs
  | none => cs

/-- Whether the trailing-phrase regex `\s*(work|works|...)` matches here. -/
def trailMatchesAt (cs : List Char) : Bool :=
  trailPhrases.any (fun p => isCiPrefix p.toList (cs.dropWhile isWs))

/-- Index of the leftmost match of the trailing-phrase regex. -/
def findTrailCut : List Char → Option Nat
  | [] => none
  | c :: cs =>
    if trailMatchesAt (c :: cs) then some 0
    else (findTrailCut cs).map (· + 1)

/-- Models `.replace(/\s*(work|works|...).*$/i, "")`: cut at the leftmost match. -/
def stripTrailPhrase (cs : List Char) : List Char :=
  match findTrailCut cs with
  | some p => cs.take p
  | none => cs

/-- Models `.replace(/\s*\?+$/, "")`: drop trailing question marks and the
whitespace before them. -/
def stripTrailingQs (cs : List Char) : List Char :=
  let r := cs.reverse
  if r.head? == some '?' then ((r.dropWhile (· == '?')).dropWhile isWs).reverse
  else cs

/-- Models `.trim()`. -/
def jsTrim (cs : List Char) : List Char :=
  ((cs.dropWhile isWs).reverse.dropWhile isWs).reverse

/-- `extractTopicFromPrompt`: the deterministic fallback heuristic — strip a
leading question phrase, a trailing filler phrase, trailing question marks,
trim; under 2 characters means no topic, otherwise subject "General". -/
def extractTopicFromPrompt (prompt : String) : Option TopicInfo :=
  let topic := jsTrim (stripTrailingQs (stripTrailPhrase (stripLeadPhrase prompt.toList)))
  if topic.length < 2 then none
  else some { subject := "General", topic := String.mk topic }

/-- Models `step.replace(/^Step \d+:\s*/i, '')` in the combiner. -/
def cleanStep (s : String) : String :=
  let cs := s.toList
  if isCiPrefix "step ".toList cs then
    let rest := cs.drop 5
    let ds := rest.takeWhile Char.isDigit
    if ds.isEmpty then s
    else
      match rest.drop ds.length with
      | ':' :: r2 => String.mk (r2.dropWhile isWs)
      | _ => s
  else s

/-- The combined document: per step a heading (cleaned step text) and its
result, joined by blank lines. -/
def combinedDoc (steps results : List String) : String :=
  String.intercalate "\n\n"
    (steps.enum.map (fun p => "### " ++ cleanStep p.2 ++ "\n" ++ results.getD p.1 "undefined"))

/-- `TRACKING_MESSAGE_ADDED` from `prompts.ts`. -/
def trackingMessageAdded (subject topic : String) : String :=
  "\n\n---\nI've added \"" ++ subject ++ " > " ++ topic ++
    "\" to your knowledge graph (50% mastery).\n\n"

/-- `TRACKING_MESSAGE_WHAT_NEXT` from `prompts.ts`. -/
def trackingMessageWhatNext : String :=
  "**What's next?**\n1. Take a quiz to improve mastery\n2. Learn another topic\n3. See your weak areas"

/-- `TRACKING_MESSAGE_EXPLAIN_MORE` from `prompts.ts`. -/
def trackingMessageExplainMore : String :=
  "\n\n---\nWant me to explain any part in more detail?"

/-- `outputCombinedResult`: build the combined document, infer a topic (the AI
call `inferSubjectTopicFromAI` catches its own failures, so its outcome is the
oracle `inferResult`; the heuristic is the `??` fallback), upsert the knowledge
entry at mastery 50 when a topic was found, save the assistant message
(`saveOk = false` models a rejected `saveMessages`, which propagates), and only
then reset the four plan-state fields. -/
def outputCombinedResult (st : Chat) (inferResult : Option TopicInfo) (saveOk : Bool)
    (now : Nat) : Except Thrown Chat :=
  let combined := combinedDoc st.planSteps st.stepResults
  let topicInfo := inferResult.orElse (fun _ => extractTopicFromPrompt st.originalPrompt)
  let withTracking : Chat × String :=
    match topicInfo with
    | some ti =>
      (updateKnowledge st
        { subject := ti.subject
          topic := ti.topic
          masteryLevel := some 50
          lastStudied := true
          notes := some ("Learned via " ++ Nat.repr st.planSteps.length ++ "-step explanation") } now,
       trackingMessageAdded ti.subject ti.topic ++ trackingMessageWhatNext)
    | none => (st, trackingMessageExplainMore)
  let st1 := withTracking.1
  if saveOk = false then .error ("saveMessages failed", st1)
  else
    let st2 : Chat := { st1 with messages := st1.messages ++ [combined ++ withTracking.2] }
    .ok { st2 with planSteps := [], stepResults := [], originalPrompt := "", isProcessingPlan := false }

/-! ## The durable step scheduler -/

/-- `executeTask`: dispatch on the scheduled payload.  A `PLAN_STEP:` payload
parses its index (`parseInt` of the text after the colon); a missing or
empty-string step (`!step` is JS-falsy for both) is logged and dropped with no
state change; otherwise the Step Processor runs (its reply is the oracle
`stepOut`), the result is stored, and either the next step is enqueued with
zero delay or the combiner runs.  Any other payload appends the generic
"Running scheduled task" user message. -/
def executeTask (st : Chat) (description : String) (stepOut : String)
    (inferResult : Option TopicInfo) (saveOk : Bool) (now : Nat) : Except Thrown Chat :=
  if List.isPrefixOf ("PLAN_STEP:".toList) description.toList then
    match jsParseInt ((charSplit ':' description.toList).getD 1 []) with
    | none => .ok st
    | some i =>
      let stepOpt := if i < 0 then none else st.planSteps.get? i.toNat
      match stepOpt with
      | none => .ok st
      | some step =>
        if step == "" then .ok st
        else
          let stepIndex := i.toNat
          let st1 : Chat := { st with stepResults := st.stepResults.set stepIndex stepOut }
          let nextIndex := stepIndex + 1
          if nextIndex < st1.planSteps.length then
            .ok { st1 with
              schedules := st1.schedules ++ [(0, "PLAN_STEP:" ++ Nat.repr nextIndex)] }
          else
            outputCombinedResult st1 inferResult saveOk now
  else
    if saveOk = false then .error ("saveMessages failed", st)
    else .ok { st with messages := st.messages ++ ["Running scheduled task: " ++ description] }

/-! ## Spec-side formulations (written from the specification's words, for
comparison against the source-derived functions above) -/

/-- Spec-side reading of the text branch of the parsing cascade: the steps a
string response yields, if any. -/
def textSteps (s : String) : Option (List String) :=
  match jsonParse s with
  | some (.arr xs) => some (xs.map jsonAsString)
  | some _ => none
  | none =>
    match firstBracketedSubstring s with
    | some sub =>
      match jsonParse sub with
      | some (.arr xs) => some (xs.map jsonAsString)
      | _ => none
    | none => none

/-- Spec-side reading of the whole cascade: the list the service response
yields before truncation, if any. -/
def extractedSteps : AIRunResult → Option (List String)
  | .obj response result =>
    match response with
    | some (.arr xs) => some xs
    | some (.str s) => textSteps s
    | _ =>
      match result with
      | some (.arr xs) => some xs
      | some (.str s) => textSteps s
      | _ => none
  | .plainStr s => textSteps s
  | .otherResult => none

/-- Spec-side reading of the claim "the 5 most frequent missed concepts across
the last 10 ledger entries": counts are taken over the ten most recent rows of
the ledger itself (rows without missed concepts contributing nothing). -/
def specTopMissedLastTenEntries (hist : List QuizRow) : List String :=
  ((List.insertionSort countDesc (conceptCounts (hist.reverse.take 10))).take 5).map (fun p => p.1)

/-- What the code actually aggregates: the ten most recent ledger rows that
recorded missed concepts (`WHERE missed_concepts IS NOT NULL ... LIMIT 10`). -/
def topMissedRecordedConcepts (hist : List QuizRow) : List String :=
  ((List.insertionSort countDesc
    (conceptCounts ((hist.reverse.filter (fun r => r.missed_concepts.isSome)).take 10))).take 5).map
    (fun p => p.1)

/-! ## Concrete states used by counterexamples and witnesses -/

/-- A freshly created `Chat` Durable Object (all tables empty). -/
def chat0 : Chat := {}

/-- The persisted situation right after a two-step LEARNING plan has been
accepted: plan fields set, empty result slots, step 0 scheduled. -/
def c1Start : Chat :=
  { planSteps := ["Step 1: define X", "Step 2: give an example of X"]
    stepResults := ["", ""]
    originalPrompt := "teach me X"
    isProcessingPlan := true
    schedules := [(0, "PLAN_STEP:0")] }

/-- The state after the step-0 continuation ran and its result was persisted
(step 1 is enqueued but has not started). -/
def c1AfterStep0 : Chat :=
  (executeTask c1Start "PLAN_STEP:0" "X is a widget." none true 0).toOption.getD c1Start

/-- Mid-plan state whose step 1 is the empty string (as a plan produced from a
service reply such as `["a", ""]` would give). -/
def c5Chat : Chat :=
  { planSteps := ["a", ""]
    stepResults := ["r0", ""]
    originalPrompt := "p"
    isProcessingPlan := true
    schedules := [(0, "PLAN_STEP:0"), (0, "PLAN_STEP:1")] }

/-- Mid-plan state used to exercise the combiner with a failing message save. -/
def c4Chat : Chat :=
  { planSteps := ["Step 1: basics", "Step 2: details"]
    stepResults := ["the basics", "the details"]
    originalPrompt := "teach me binary trees"
    isProcessingPlan := true }

/-- Knowledge rows at the weak-area boundary triples of the claim. -/
def c9Chat : Chat :=
  { knowledge :=
      [{ subject := "s", topic := "t60c50", mastery_level := 60, confidence := 50 },
       { subject := "s", topic := "t60c49", mastery_level := 60, confidence := 49 },
       { subject := "s", topic := "t59c90", mastery_level := 59, confidence := 90 }] }

/-- An 11-row ledger: the oldest row recorded concept "old", the next nine
recorded "a", and the newest recorded none — so the last ten ledger entries
contain only "a", while the last ten rows with recorded concepts reach back to
"old". -/
def c7Chat : Chat :=
  { quizHistory :=
      [{ subject := "s", missed_concepts := some ["old"], quiz_date := 1 },
       { subject := "s", missed_concepts := some ["a"], quiz_date := 2 },
       { subject := "s", missed_concepts := some ["a"], quiz_date := 3 },
       { subject := "s", missed_concepts := some ["a"], quiz_date := 4 },
       { subject := "s", missed_concepts := some ["a"], quiz_date := 5 },
       { subject := "s", missed_concepts := some ["a"], quiz_date := 6 },
       { subject := "s", missed_concepts := some ["a"], quiz_date := 7 },
       { subject := "s", missed_concepts := some ["a"], quiz_date := 8 },
       { subject := "s", missed_concepts := some ["a"], quiz_date := 9 },
       { subject := "s", missed_concepts := some ["a"], quiz_date := 10 },
       { subject := "s", quiz_date := 11 }] }

/-- A state with a prior knowledge entry at mastery 40 for math > algebra. -/
def c3wChat : Chat :=
  { knowledge := [
      { subject := "math"
        topic := "algebra"
        mastery_level := 40
        times_quizzed := 3 }] }

/-- A perfect-score submission on the topic of `c3wChat`. -/
def c3wData : QuizResult :=
  { subject := "math", topic := some "algebra", quizType := "mixed", score := 100,
    totalQuestions := 4, correctAnswers := 4, missedConcepts := ["roots"] }

/-- A submission without a topic. -/
def c10wData : QuizResult :=
  { subject := "math", quizType := "mixed", score := 70, totalQuestions := 10,
    correctAnswers := 7 }

/-- A quiz submission on a fresh topic whose missed-concept list repeats a
concept. -/
def c3Submission : QuizResult :=
  { subject := "math"
    topic := some "algebra"
    quizType := "mixed"
    score := 80
    totalQuestions := 5
    correctAnswers := 4
    missedConcepts := ["fractions", "fractions"] }

/-- Extracts the state carried by a thrown exception, if the run threw. -/
def thrownState : Except Thrown Chat → Option Chat
  | .error (_, st) => some st
  | .ok _ => none

/-! ## Helper lemmas -/

theorem jsRound_eq_round (x : ℚ) : jsRound x = round x := by
  rw [round_eq, jsRound]; rfl

theorem jsRound_zero : jsRound 0 = 0 := by
  rw [jsRound_eq_round]; exact round_zero

/-- The weighted update applied to 40 with a new score of 100 gives 58. -/
theorem weighted_40_100 :
    min 100 (max 0 (jsRound ((40 : ℚ) * (7/10) + (100 : ℚ) * (3/10)))) = 58 := by
  have h : (40 : ℚ) * (7/10) + (100 : ℚ) * (3/10) = ((58 : ℤ) : ℚ) := by norm_num
  rw [h, jsRound_eq_round, round_intCast]
  norm_num

/-- The weighted update is a fixed point at any in-range score. -/
theorem weighted_fixed_point (S : ℤ) (h0 : 0 ≤ S) (h100 : S ≤ 100) :
    min 100 (max 0 (jsRound ((S : ℚ) * (7/10) + (S : ℚ) * (3/10)))) = S := by
  have h : (S : ℚ) * (7/10) + (S : ℚ) * (3/10) = (S : ℚ) := by ring
  rw [h, jsRound_eq_round, round_intCast]
  omega

/-- `applyKnowledgeUpdate` never changes the key of a row. -/
theorem applyKnowledgeUpdate_key (data : KnowledgeUpdate) (now : Nat) (k : KnowledgeRow) :
    (applyKnowledgeUpdate data now k).subject = k.subject ∧
      (applyKnowledgeUpdate data now k).topic = k.topic := ⟨rfl, rfl⟩

/-- `find?` over the keyed conditional map used by the update branch of
`updateKnowledge`: the first match is transformed, everything else is dropped
or kept as before. -/
theorem find?_keyed_map (l : List KnowledgeRow) (s t : String) (f : KnowledgeRow → KnowledgeRow)
    (hkey : ∀ k, (f k).subject = k.subject ∧ (f k).topic = k.topic) :
    (l.map (fun k => if k.subject == s && k.topic == t then f k else k)).find?
        (fun k => k.subject == s && k.topic == t) =
      (l.find? (fun k => k.subject == s && k.topic == t)).map f := by
  induction l with
  | nil => rfl
  | cons a l ih =>
    simp only [List.map_cons, List.find?_cons]
    by_cases hp : (a.subject == s && a.topic == t) = true
    · have hfp : ((f a).subject == s && (f a).topic == t) = true := by
        rw [(hkey a).1, (hkey a).2]; exact hp
      rw [if_pos hp]
      simp only [List.find?_cons, hfp, hp, Option.map_some']
    · have hpf : (a.subject == s && a.topic == t) = false := by
        revert hp; cases (a.subject == s && a.topic == t) <;> simp
      rw [if_neg hp]
      simp only [List.find?_cons, hpf, ih]

/-- Only the `knowledge` table changes under `updateKnowledge`. -/
theorem updateKnowledge_quizHistory (st : Chat) (u : KnowledgeUpdate) (now : Nat) :
    (updateKnowledge st u now).quizHistory = st.quizHistory := by
  unfold updateKnowledge
  cases getTopicMastery st u.subject u.topic <;> rfl

/-- The row `getTopicMastery` sees after an `updateKnowledge` upsert on the
same key: the fresh row when no row matched, the updated first match otherwise. -/
theorem getTopicMastery_updateKnowledge (st : Chat) (data : KnowledgeUpdate) (now : Nat)
    (s t : String) (hs : data.subject = s) (ht : data.topic = t) :
    getTopicMastery (updateKnowledge st data now) s t =
      match getTopicMastery st s t with
      | none => some (freshKnowledgeRow data now)
      | some e => some (applyKnowledgeUpdate data now e) := by
  subst hs
  subst ht
  unfold updateKnowledge
  cases h : getTopicMastery st data.subject data.topic with
  | none =>
    unfold getTopicMastery at h ⊢
    have h1 : (freshKnowledgeRow data now).subject = data.subject := rfl
    have h2 : (freshKnowledgeRow data now).topic = data.topic := rfl
    have hfp : ((freshKnowledgeRow data now).subject == data.subject &&
        (freshKnowledgeRow data now).topic == data.topic) = true := by
      rw [h1, h2]; simp
    simp only [h, List.find?_append, List.find?_cons, hfp, Option.none_or]
  | some e =>
    unfold getTopicMastery at h ⊢
    simp only [h]
    rw [find?_keyed_map st.knowledge data.subject data.topic
      (applyKnowledgeUpdate data now) (fun k => applyKnowledgeUpdate_key data now k), h,
      Option.map_some']

/-! ## C1: crash-resume of the step scheduler -/

/-- C1 counterexample: with a two-step plan whose step-0 result has been
persisted and step 1 enqueued, a process restart erases the plan fields (they
are in-memory class fields), so re-entering the scheduler with the durable
`PLAN_STEP:1` continuation leaves the state completely unchanged — execution
does not resume at `Executing(1)` as the claim states (no step-1 result is
written, no combiner output is appended). -/
theorem c1_crash_resume_counterexample :
    c1AfterStep0.stepResults = ["X is a widget.", ""] ∧
    c1AfterStep0.schedules = [(0, "PLAN_STEP:0"), (0, "PLAN_STEP:1")] ∧
    c1AfterStep0.isProcessingPlan = true ∧
    executeTask (restart c1AfterStep0) "PLAN_STEP:1" "an example" none true 1 =
      .ok (restart c1AfterStep0) ∧
    (restart c1AfterStep0).planSteps = [] ∧
    (restart c1AfterStep0).stepResults = [] ∧
    (restart c1AfterStep0).messages = [] ∧
    (restart c1AfterStep0).knowledge = [] := by decide

/-- C1 (amended): the scheduled continuation itself is durable, but the plan
state it depends on lives only in process memory: after a restart every
`PLAN_STEP:` continuation finds an empty plan and is dropped with no state
change (so step 0 is never re-executed and `Combining` is never entered, but
execution does not resume at `Executing(1)` either), while the tables,
messages and durable schedules survive the restart. -/
theorem c1_restart_drops_plan_continuation (st : Chat) (d stepOut : String)
    (infer : Option TopicInfo) (saveOk : Bool) (now : Nat)
    (hd : List.isPrefixOf ("PLAN_STEP:".toList) d.toList = true) :
    executeTask (restart st) d stepOut infer saveOk now = .ok (restart st) ∧
    (restart st).planSteps = [] ∧ (restart st).stepResults = [] ∧
    (restart st).originalPrompt = "" ∧ (restart st).isProcessingPlan = false ∧
    (restart st).knowledge = st.knowledge ∧ (restart st).quizHistory = st.quizHistory ∧
    (restart st).messages = st.messages ∧ (restart st).schedules = st.schedules := by
  refine ⟨?_, rfl, rfl, rfl, rfl, rfl, rfl, rfl, rfl⟩
  unfold executeTask
  simp only [hd, if_true]
  cases h : jsParseInt ((charSplit ':' d.toList).getD 1 []) with
  | none => rfl
  | some i =>
    have hsteps : (restart st).planSteps = [] := rfl
    by_cases hneg : i < 0
    · simp [hneg]
    · simp [hneg, hsteps]

/-- C1 witness: the amended theorem applied to the concrete crashed state. -/
theorem c1_restart_drops_plan_continuation_witness :
    List.isPrefixOf ("PLAN_STEP:".toList) ("PLAN_STEP:1".toList) = true ∧
    executeTask (restart c1AfterStep0) "PLAN_STEP:1" "an example" none true 1 =
      .ok (restart c1AfterStep0) :=
  ⟨by decide,
   (c1_restart_drops_plan_continuation c1AfterStep0 "PLAN_STEP:1" "an example" none true 1
     (by decide)).1⟩

/-! ## C2: the plan-generation parsing cascade -/

/-- The bracket-branch bodies of `parseStepsFromString` and `textSteps` agree. -/
theorem take10_match (o : Option Json) (fb : String) :
    (match o with
     | some (.arr xs) => (xs.map jsonAsString).take 10
     | _ => [fb]) =
      (match (match o with
              | some (.arr xs) => some (xs.map jsonAsString)
              | _ => none) with
       | some xs => xs.take 10
       | none => [fb]) := by
  cases o with
  | none => rfl
  | some j => cases j <;> rfl

/-- The text branch of the cascade agrees with its spec-side reading. -/
theorem parseSteps_eq_textSteps (s fb : String) :
    parseStepsFromString s fb =
      match textSteps s with
      | some xs => xs.take 10
      | none => [fb] := by
  unfold parseStepsFromString textSteps
  cases hj : jsonParse s with
  | some j => cases j <;> rfl
  | none =>
    cases hb : firstBracketedSubstring s with
    | none => rfl
    | some sub => exact take10_match (jsonParse sub) fb

/-- `generatePlan` agrees with the spec-side cascade reading. -/
theorem generatePlan_eq_extracted (res : AIRunResult) (prompt : String) :
    generatePlan res prompt =
      match extractedSteps res with
      | some xs => xs.take 10
      | none => [prompt] := by
  cases res with
  | obj response result =>
    cases response with
    | none =>
      cases result with
      | none => rfl
      | some v => cases v <;> simp [generatePlan, extractedSteps, parseSteps_eq_textSteps]
    | some v =>
      cases v with
      | arr xs => rfl
      | str s => simp [generatePlan, extractedSteps, parseSteps_eq_textSteps]
      | otherVal =>
        cases result with
        | none => rfl
        | some w => cases w <;> simp [generatePlan, extractedSteps, parseSteps_eq_textSteps]
  | plainStr s => simp [generatePlan, extractedSteps, parseSteps_eq_textSteps]
  | otherResult => rfl

/-- C2 counterexample: a service response that is already a structured list but
empty — `generatePlan` returns the empty plan, contradicting "between 1 and 10
step descriptions" and "never returns an empty list". -/
theorem c2_empty_list_counterexample :
    generatePlan (.obj (some (.arr [])) none) "explain monads" = [] ∧
    (generatePlan (.obj (some (.arr [])) none) "explain monads").length < 1 := by decide

/-- C2 (amended): the generator never throws (it is total) and returns at most
10 steps; a response from which no list can be extracted yields exactly the
one-element plan `[prompt]`; an extractable list is returned truncated to 10 —
in particular an empty service list yields an empty plan, so the length can be
0. -/
theorem c2_plan_generator_cascade (res : AIRunResult) (prompt : String) :
    (generatePlan res prompt).length ≤ 10 ∧
    (extractedSteps res = none → generatePlan res prompt = [prompt]) ∧
    (∀ xs, extractedSteps res = some xs → generatePlan res prompt = xs.take 10) := by
  refine ⟨?_, ?_, ?_⟩
  · cases h : extractedSteps res with
    | none => rw [generatePlan_eq_extracted, h]; simp
    | some xs =>
      rw [generatePlan_eq_extracted, h]
      simp only [List.length_take]
      exact min_le_left _ _
  · intro h; rw [generatePlan_eq_extracted, h]
  · intro xs h; rw [generatePlan_eq_extracted, h]

/-- C2 witness: the amended theorem applied to a bracketed-substring response. -/
theorem c2_plan_generator_cascade_witness :
    extractedSteps (.plainStr "steps: [\"x\",\"y\"] done") = some ["x", "y"] ∧
    generatePlan (.plainStr "steps: [\"x\",\"y\"] done") "p" = ["x", "y"] :=
  ⟨by decide,
   by
    have h := (c2_plan_generator_cascade (.plainStr "steps: [\"x\",\"y\"] done") "p").2.2
      ["x", "y"] (by decide)
    simpa using h⟩

/-! ## C3: the quiz-driven mastery update -/

/-- C3 counterexample: on a quiz submission for a topic with no prior knowledge
entry whose missed-concept list repeats "fractions", the stored `weakAreas` is
the list verbatim — `["fractions", "fractions"]` — not the duplicate-free union
`["fractions"]` the claim specifies for every submission. -/
theorem c3_fresh_weak_areas_counterexample :
    (recordQuiz chat0 c3Submission 0).toOption.bind
        (fun st => (getTopicMastery st "math" "algebra").map (fun k => k.weak_areas)) =
      some (some ["fractions", "fractions"]) ∧
    jsSetDedup ([] ++ c3Submission.missedConcepts) = ["fractions"] ∧
    (["fractions", "fractions"] : List String) ≠ ["fractions"] := by decide

/-- C3 (amended): for a submission with a subject and a (non-empty) topic, a
valid quiz type and an in-range score, `recordQuiz` appends the ledger row and
leaves the knowledge entry with: mastery = score, timesQuizzed = 1 and
weakAreas = the submitted missedConcepts *verbatim* (deduplicated only if the
submission itself is duplicate-free) when no prior entry existed; and mastery =
round(prior·0.7 + score·0.3) clamped to [0,100], timesQuizzed incremented and
weakAreas = the duplicate-free union when a prior entry existed.  In particular
prior mastery 40 with score 100 gives 58, and resubmitting the same score S
leaves mastery at S. -/
theorem c3_record_quiz_mastery_update (st : Chat) (data : QuizResult) (now : Nat)
    (t : String) (htopic : data.topic = some t) (ht : t ≠ "")
    (htype : quizTypeValues.contains data.quizType = true)
    (h0 : 0 ≤ data.score) (h100 : data.score ≤ 100) :
    (∃ st', recordQuiz st data now = .ok st' ∧
      st'.quizHistory = st.quizHistory ++ [quizRowOf data now] ∧
      (getTopicMastery st data.subject t = none →
        getTopicMastery st' data.subject t = some
          { subject := data.subject, topic := t, mastery_level := data.score,
            confidence := 0, times_studied := 0, times_quizzed := 1,
            last_studied := none, last_quizzed := some now,
            weak_areas := some data.missedConcepts, notes := none }) ∧
      (∀ e, getTopicMastery st data.subject t = some e →
        getTopicMastery st' data.subject t = some
          { e with
            mastery_level := min 100 (max 0
              (jsRound ((e.mastery_level : ℚ) * (7/10) + (data.score : ℚ) * (3/10))))
            times_quizzed := e.times_quizzed + 1
            last_quizzed := some now
            weak_areas := some (jsSetDedup (e.weak_areas.getD [] ++ data.missedConcepts)) })) ∧
    min 100 (max 0 (jsRound ((40 : ℚ) * (7/10) + (100 : ℚ) * (3/10)))) = 58 ∧
    (∀ S : ℤ, 0 ≤ S → S ≤ 100 →
      min 100 (max 0 (jsRound ((S : ℚ) * (7/10) + (S : ℚ) * (3/10)))) = S) := by
  refine ⟨?_, weighted_40_100, weighted_fixed_point⟩
  have hscore : (data.score < 0 || 100 < data.score) = false := by
    simp only [Bool.or_eq_false_iff, decide_eq_false_iff_not, not_lt]
    exact ⟨h0, h100⟩
  have hbeq : (t == "") = false := by
    simp only [beq_eq_false_iff_ne, ne_eq]
    exact ht
  unfold recordQuiz
  simp only [htype, htopic, hscore, hbeq, Bool.true_eq_false, Bool.false_eq_true,
    if_false, if_true]
  set st1 : Chat := { st with quizHistory := st.quizHistory ++ [quizRowOf data now] } with hst1
  have hmast : getTopicMastery st1 data.subject t = getTopicMastery st data.subject t := rfl
  cases h : getTopicMastery st data.subject t with
  | none =>
    rw [hmast, h]
    refine ⟨_, rfl, updateKnowledge_quizHistory st1 _ now, fun _ => ?_,
      fun e he => Option.noConfusion he⟩
    have hh := getTopicMastery_updateKnowledge st1
      { subject := data.subject, topic := t, masteryLevel := some data.score,
        timesQuizzed := some 1, lastQuizzed := true,
        weakAreas := some data.missedConcepts } now data.subject t rfl rfl
    rw [hmast, h] at hh
    rw [hh]
    rfl
  | some e =>
    rw [hmast, h]
    refine ⟨_, rfl, updateKnowledge_quizHistory st1 _ now,
      fun hnone => Option.noConfusion hnone, fun e' he' => ?_⟩
    cases he'
    have hh := getTopicMastery_updateKnowledge st1
      { subject := data.subject, topic := t,
        masteryLevel := some (min 100 (max 0
          (jsRound ((e.mastery_level : ℚ) * (7/10) + (data.score : ℚ) * (3/10))))),
        timesQuizzed := some (e.times_quizzed + 1), lastQuizzed := true,
        weakAreas := some (jsSetDedup (e.weak_areas.getD [] ++ data.missedConcepts)) } now
      data.subject t rfl rfl
    rw [hmast, h] at hh
    rw [hh]
    rfl

/-- C3 witness: the amended theorem applied to a prior entry of mastery 40 and
a new score of 100 (the spec's own worked example). -/
theorem c3_record_quiz_mastery_update_witness :
    (c3wData.topic = some "algebra" ∧ "algebra" ≠ "" ∧
      quizTypeValues.contains c3wData.quizType = true ∧
      0 ≤ c3wData.score ∧ c3wData.score ≤ 100) ∧
    (∃ st', recordQuiz c3wChat c3wData 7 = .ok st' ∧
      st'.quizHistory = c3wChat.quizHistory ++ [quizRowOf c3wData 7] ∧
      (getTopicMastery c3wChat c3wData.subject "algebra" = none →
        getTopicMastery st' c3wData.subject "algebra" = some
          { subject := c3wData.subject, topic := "algebra", mastery_level := c3wData.score,
            confidence := 0, times_studied := 0, times_quizzed := 1,
            last_studied := none, last_quizzed := some 7,
            weak_areas := some c3wData.missedConcepts, notes := none }) ∧
      (∀ e, getTopicMastery c3wChat c3wData.subject "algebra" = some e →
        getTopicMastery st' c3wData.subject "algebra" = some
          { e with
            mastery_level := min 100 (max 0
              (jsRound ((e.mastery_level : ℚ) * (7/10) + (c3wData.score : ℚ) * (3/10))))
            times_quizzed := e.times_quizzed + 1
            last_quizzed := some 7
            weak_areas := some (jsSetDedup (e.weak_areas.getD [] ++ c3wData.missedConcepts)) })) :=
  ⟨⟨by decide, by decide, by decide, by decide, by decide⟩,
   (c3_record_quiz_mastery_update c3wChat c3wData 7 "algebra"
      (by decide) (by decide) (by decide) (by decide) (by decide)).1⟩

/-! ## C4: the combiner always clears plan state -/

/-- C4 counterexample: when `saveMessages` rejects, `outputCombinedResult`
propagates the exception before reaching its reset lines, leaving the plan
fields set (`isProcessingPlan` still true, the steps still stored) — the
combiner does not clear plan state on every exit path. -/
theorem c4_save_failure_counterexample :
    (thrownState (outputCombinedResult c4Chat none false 0)).map
        (fun stE => (stE.isProcessingPlan, stE.planSteps)) =
      some (true, ["Step 1: basics", "Step 2: details"]) ∧
    (["Step 1: basics", "Step 2: details"] : List String) ≠ [] := by decide

/-- C4 (amended): whenever the message save succeeds, the combiner clears all
four plan-session fields and returns to Idle on every path — topic inference
succeeding, falling back to the heuristic, or finding no topic at all (the
knowledge upsert skipped); but a rejected message save propagates before the
reset lines run, so the clear is conditional on reaching them. -/
theorem c4_combiner_clears_on_success (st : Chat) (inferResult : Option TopicInfo)
    (now : Nat) :
    ∃ st', outputCombinedResult st inferResult true now = .ok st' ∧
      st'.planSteps = [] ∧ st'.stepResults = [] ∧
      st'.originalPrompt = "" ∧ st'.isProcessingPlan = false := by
  unfold outputCombinedResult
  cases h : inferResult.orElse (fun _ => extractTopicFromPrompt st.originalPrompt) with
  | some ti => exact ⟨_, rfl, rfl, rfl, rfl, rfl⟩
  | none => exact ⟨_, rfl, rfl, rfl, rfl, rfl⟩

/-! ## C5: the scheduled-continuation dispatch -/

/-- C5 counterexample: index 1 is a valid index into the two-step plan
`["a", ""]`, but because `!step` is also true for the empty-string step, the
continuation is dropped: the state is returned unchanged — no Step Processor
invocation, no result write, no enqueue, no combine. -/
theorem c5_empty_step_counterexample :
    c5Chat.planSteps.get? 1 = some "" ∧
    executeTask c5Chat "PLAN_STEP:1" "processed" none true 0 = .ok c5Chat ∧
    c5Chat.stepResults.get? 1 ≠ some "processed" := by decide

/-- C5 (amended): a continuation whose payload designates step `n` (it starts
with `PLAN_STEP:` and its index text parses to `n`) behaves as follows — if
`n` is a valid index and the step text is non-empty, the step result is written
to slot `n` and either `PLAN_STEP:(n+1)` is enqueued with zero delay (when
`n+1 < N`) or the combiner runs on the updated state; if `n` is out of range
the continuation is dropped with no state change; and — beyond the claim — a
valid index whose step text is the empty string is also dropped. -/
theorem c5_execute_task_dispatch (st : Chat) (d stepOut : String) (n : Nat)
    (infer : Option TopicInfo) (saveOk : Bool) (now : Nat)
    (hd : List.isPrefixOf ("PLAN_STEP:".toList) d.toList = true)
    (hn : jsParseInt ((charSplit ':' d.toList).getD 1 []) = some (n : Int)) :
    (∀ s, st.planSteps.get? n = some s → s ≠ "" → n + 1 < st.planSteps.length →
      executeTask st d stepOut infer saveOk now = .ok { st with
        stepResults := st.stepResults.set n stepOut
        schedules := st.schedules ++ [(0, "PLAN_STEP:" ++ Nat.repr (n + 1))] }) ∧
    (∀ s, st.planSteps.get? n = some s → s ≠ "" → ¬ (n + 1 < st.planSteps.length) →
      executeTask st d stepOut infer saveOk now =
        outputCombinedResult { st with stepResults := st.stepResults.set n stepOut }
          infer saveOk now) ∧
    (st.planSteps.get? n = none → executeTask st d stepOut infer saveOk now = .ok st) ∧
    (st.planSteps.get? n = some "" → executeTask st d stepOut infer saveOk now = .ok st) := by
  have hneg : ¬ ((n : Int) < 0) := by exact_mod_cast Int.natCast_nonneg n |>.not_lt
  have htn : ((n : Int)).toNat = n := Int.toNat_natCast n
  refine ⟨?_, ?_, ?_, ?_⟩
  · intro s hs hne hlt
    have hbeq : (s == "") = false := by simp only [beq_eq_false_iff_ne, ne_eq]; exact hne
    unfold executeTask
    rw [hd, if_pos rfl, hn]
    simp only [hneg, if_false, htn, hs, hbeq, Bool.false_eq_true]
    have hlen : ({ st with stepResults := st.stepResults.set n stepOut } : Chat).planSteps.length
        = st.planSteps.length := rfl
    rw [if_pos (by rw [hlen]; exact hlt)]
  · intro s hs hne hge
    have hbeq : (s == "") = false := by simp only [beq_eq_false_iff_ne, ne_eq]; exact hne
    unfold executeTask
    rw [hd, if_pos rfl, hn]
    simp only [hneg, if_false, htn, hs, hbeq, Bool.false_eq_true]
    have hlen : ({ st with stepResults := st.stepResults.set n stepOut } : Chat).planSteps.length
        = st.planSteps.length := rfl
    rw [if_neg (by rw [hlen]; exact hge)]
  · intro hs
    unfold executeTask
    rw [hd, if_pos rfl, hn]
    simp only [hneg, if_false, htn, hs]
  · intro hs
    unfold executeTask
    rw [hd, if_pos rfl, hn]
    simp only [hneg, if_false, htn, hs]
    rfl

/-- C5 witness: the amended theorem applied to the first continuation of a
concrete two-step plan. -/
theorem c5_execute_task_dispatch_witness :
    c1Start.planSteps.get? 0 = some "Step 1: define X" ∧
    executeTask c1Start "PLAN_STEP:0" "X is a widget." none true 0 = .ok { c1Start with
      stepResults := c1Start.stepResults.set 0 "X is a widget."
      schedules := c1Start.schedules ++ [(0, "PLAN_STEP:" ++ Nat.repr 1)] } :=
  ⟨by decide,
   (c5_execute_task_dispatch c1Start "PLAN_STEP:0" "X is a widget." 0 none true 0
      (by decide) (by decide)).1 "Step 1: define X" (by decide) (by decide) (by decide)⟩

/-! ## C6: enumerated-field validation before any write -/

/-- C6: on every write operation carrying an enumerated field, an
out-of-enumeration value raises a validation error whose carried state is the
original state — the validations run before any SQL statement, so no partial
write occurs. -/
theorem c6_enum_validation_rejects :
    (∀ (st : Chat) (data : SessionPreferencesUpdate),
      ((enumBad data.goal goalValues).isSome = true ∨
        (enumBad data.examDepth examDepthValues).isSome = true ∨
        (enumBad data.quizType quizTypeValues).isSome = true) →
      ∃ m, updateSessionPreferences st data = .error (m, st)) ∧
    (∀ (st : Chat) (data : QuizResult) (now : Nat),
      quizTypeValues.contains data.quizType = false →
      ∃ m, recordQuiz st data now = .error (m, st)) ∧
    (∀ (st : Chat) (ty : String) (subj top : Option String) (now : Nat),
      sessionTypeValues.contains ty = false →
      ∃ m, startSession st ty subj top now = .error (m, st)) ∧
    (∀ (st : Chat) (ty : String),
      resetTypeValues.contains ty = false →
      ∃ m, resetProgress st ty = .error (m, st)) := by
  refine ⟨?_, ?_, ?_, ?_⟩
  · intro st data hbad
    unfold updateSessionPreferences
    cases h1 : enumBad data.goal goalValues with
    | some g => exact ⟨_, rfl⟩
    | none =>
      cases h2 : enumBad data.examDepth examDepthValues with
      | some d => exact ⟨_, rfl⟩
      | none =>
        cases h3 : enumBad data.quizType quizTypeValues with
        | some q => exact ⟨_, rfl⟩
        | none =>
          rw [h1, h2, h3] at hbad
          simp at hbad
  · intro st data now hbad
    unfold recordQuiz
    rw [if_pos hbad]
    exact ⟨_, rfl⟩
  · intro st ty subj top now hbad
    unfold startSession
    rw [if_pos hbad]
    exact ⟨_, rfl⟩
  · intro st ty hbad
    unfold resetProgress
    rw [if_pos hbad]
    exact ⟨_, rfl⟩

/-- C6 witness: the theorem applied to concrete out-of-enumeration values on
all four operations. -/
theorem c6_enum_validation_rejects_witness :
    ((enumBad (some (some "party")) goalValues).isSome = true ∧
      ∃ m, updateSessionPreferences chat0 { goal := some (some "party") } = .error (m, chat0)) ∧
    (quizTypeValues.contains "oral" = false ∧
      ∃ m, recordQuiz chat0 { quizType := "oral" } 0 = .error (m, chat0)) ∧
    (sessionTypeValues.contains "cram" = false ∧
      ∃ m, startSession chat0 "cram" none none 0 = .error (m, chat0)) ∧
    (resetTypeValues.contains "everything" = false ∧
      ∃ m, resetProgress chat0 "everything" = .error (m, chat0)) :=
  ⟨⟨by decide, c6_enum_validation_rejects.1 chat0 { goal := some (some "party") }
      (Or.inl (by decide))⟩,
   ⟨by decide, c6_enum_validation_rejects.2.1 chat0 { quizType := "oral" } 0 (by decide)⟩,
   ⟨by decide, c6_enum_validation_rejects.2.2.1 chat0 "cram" none none 0 (by decide)⟩,
   ⟨by decide, c6_enum_validation_rejects.2.2.2 chat0 "everything" (by decide)⟩⟩

/-! ## C7: the quiz statistics aggregator -/

/-- The greatest element of a list of integers is an upper bound. -/
theorem int_max?_bound {l : List Int} {m : Int} (h : l.max? = some m) :
    ∀ x ∈ l, x ≤ m := fun x hx =>
  (List.max?_le_iff (fun _ _ _ => max_le_iff) h).1 le_rfl x hx

/-- The least element of a list of integers is a lower bound. -/
theorem int_min?_bound {l : List Int} {m : Int} (h : l.min? = some m) :
    ∀ x ∈ l, m ≤ x := fun x hx =>
  (List.le_min?_iff (fun _ _ _ => le_min_iff) h).1 le_rfl x hx

/-- An empty row set yields the all-zero statistics. -/
theorem getQuizStats_of_rows_nil (st : Chat) (subject : Option String)
    (h : quizRowsFor st subject = []) : getQuizStats st subject = zeroStats := by
  unfold getQuizStats
  rw [h]
  simp [zeroStats, jsRound_zero]

/-- C7 counterexample: on an 11-row ledger whose oldest row recorded concept
"old", the next nine recorded "a" and the newest recorded none, the aggregator
reports `["a", "old"]` — it reaches past the last 10 ledger entries to find 10
rows with recorded concepts — while the claim's "across the last 10 ledger
entries" gives `["a"]`. -/
theorem c7_last_ten_counterexample :
    (getQuizStats c7Chat none).mostMissedConcepts = ["a", "old"] ∧
    specTopMissedLastTenEntries c7Chat.quizHistory = ["a"] ∧
    (["a", "old"] : List String) ≠ ["a"] := by decide

/-- C7 (amended): the aggregator returns the count, the rounded mean, the
summed question/correct totals, bounds that are attained max/min scores, the
last five scores newest first, and the five most frequent missed concepts
across the last ten ledger entries *that recorded missed concepts* (ties by
first-encounter order under the stable descending-frequency sort); it is a pure
read, and an empty history yields the all-zero output. -/
theorem c7_quiz_stats_spec (st : Chat) (subject : Option String) :
    (getQuizStats st subject).totalQuizzes = (quizRowsFor st subject).length ∧
    (getQuizStats st subject).totalQuestions =
      ((quizRowsFor st subject).map (fun r => r.total_questions)).sum ∧
    (getQuizStats st subject).totalCorrect =
      ((quizRowsFor st subject).map (fun r => r.correct_answers)).sum ∧
    (getQuizStats st subject).averageScore =
      jsRound (if (quizRowsFor st subject).length = 0 then 0 else
        ((((quizRowsFor st subject).map (fun r => r.score)).sum : ℤ) : ℚ) /
          ((quizRowsFor st subject).length : ℚ)) ∧
    (∀ r ∈ quizRowsFor st subject,
      (getQuizStats st subject).worstScore ≤ r.score ∧
        r.score ≤ (getQuizStats st subject).bestScore) ∧
    (quizRowsFor st subject ≠ [] →
      (getQuizStats st subject).bestScore ∈ (quizRowsFor st subject).map (fun r => r.score) ∧
      (getQuizStats st subject).worstScore ∈ (quizRowsFor st subject).map (fun r => r.score)) ∧
    (getQuizStats st subject).recentScores =
      ((quizRowsFor st subject).reverse.take 5).map (fun r => r.score) ∧
    (getQuizStats st subject).mostMissedConcepts =
      topMissedRecordedConcepts (quizRowsFor st subject) ∧
    (quizRowsFor st subject = [] → getQuizStats st subject = zeroStats) := by
  refine ⟨rfl, rfl, rfl, rfl, ?_, ?_, rfl, rfl, getQuizStats_of_rows_nil st subject⟩
  · intro r hr
    have hscore : r.score ∈ (quizRowsFor st subject).map (fun r => r.score) :=
      List.mem_map_of_mem _ hr
    cases hmax : ((quizRowsFor st subject).map (fun r => r.score)).max? with
    | none =>
      rw [List.max?_eq_none_iff] at hmax
      rw [hmax] at hscore
      cases hscore
    | some m =>
      cases hmin : ((quizRowsFor st subject).map (fun r => r.score)).min? with
      | none =>
        rw [List.min?_eq_none_iff] at hmin
        rw [hmin] at hscore
        cases hscore
      | some m' =>
        have hb : (getQuizStats st subject).bestScore = m := by
          show ((quizRowsFor st subject).map (fun r => r.score)).max?.getD 0 = m
          rw [hmax]; rfl
        have hw : (getQuizStats st subject).worstScore = m' := by
          show ((quizRowsFor st subject).map (fun r => r.score)).min?.getD 0 = m'
          rw [hmin]; rfl
        rw [hb, hw]
        exact ⟨int_min?_bound hmin r.score hscore, int_max?_bound hmax r.score hscore⟩
  · intro hne
    have hmape : (quizRowsFor st subject).map (fun r => r.score) ≠ [] := by
      intro hmap
      exact hne (List.map_eq_nil_iff.mp hmap)
    cases hmax : ((quizRowsFor st subject).map (fun r => r.score)).max? with
    | none => exact absurd (List.max?_eq_none_iff.mp hmax) hmape
    | some m =>
      cases hmin : ((quizRowsFor st subject).map (fun r => r.score)).min? with
      | none => exact absurd (List.min?_eq_none_iff.mp hmin) hmape
      | some m' =>
        have hb : (getQuizStats st subject).bestScore = m := by
          show ((quizRowsFor st subject).map (fun r => r.score)).max?.getD 0 = m
          rw [hmax]; rfl
        have hw : (getQuizStats st subject).worstScore = m' := by
          show ((quizRowsFor st subject).map (fun r => r.score)).min?.getD 0 = m'
          rw [hmin]; rfl
        rw [hb, hw]
        exact ⟨List.max?_mem (fun a b => max_choice a b) hmax,
          List.min?_mem (fun a b => min_choice a b) hmin⟩

/-- C7 witness: the amended theorem applied to the 11-row ledger, using the
attained-bounds clause on its non-empty row set. -/
theorem c7_quiz_stats_spec_witness :
    quizRowsFor c7Chat none ≠ [] ∧
    ((getQuizStats c7Chat none).bestScore ∈ (quizRowsFor c7Chat none).map (fun r => r.score) ∧
      (getQuizStats c7Chat none).worstScore ∈ (quizRowsFor c7Chat none).map (fun r => r.score)) :=
  ⟨by decide, (c7_quiz_stats_spec c7Chat none).2.2.2.2.2.1 (by decide)⟩

/-! ## C8: reset scopes and their frame -/

/-- C8: `resetProgress "quizzes"` empties exactly the quiz ledger — knowledge
(and hence any subsequent weak-areas query) is untouched and a subsequent
aggregator call returns the all-zero statistics; likewise "knowledge" clears
only knowledge entries, "sessions" only study sessions, and "all" additionally
clears profile and preference state. -/
theorem c8_reset_scopes_frame (st : Chat) (subject : Option String) (limit : Nat) :
    resetProgress st "quizzes" = .ok { st with quizHistory := [] } ∧
    getWeakAreas { st with quizHistory := [] } limit = getWeakAreas st limit ∧
    getQuizStats { st with quizHistory := [] } subject = zeroStats ∧
    resetProgress st "knowledge" = .ok { st with knowledge := [] } ∧
    resetProgress st "sessions" = .ok { st with studySessions := [] } ∧
    resetProgress st "all" = .ok { st with
      knowledge := []
      quizHistory := []
      studySessions := []
      userProfile := none
      sessionPreferences := none } := by
  refine ⟨rfl, rfl, ?_, rfl, rfl, rfl⟩
  apply getQuizStats_of_rows_nil
  cases subject <;> rfl

/-! ## C9: the weak-areas query -/

/-- C9: `getWeakAreas` returns exactly the knowledge entries with mastery < 60
or confidence < 50, ordered ascending by (mastery, confidence), truncated to
the given limit (default 10); at the boundary, (59, 90) and (60, 49) qualify
while (60, 50) does not. -/
theorem c9_weak_areas_query (st : Chat) (limit : Nat) :
    (∀ k ∈ getWeakAreas st limit,
      (k.mastery_level < 60 ∨ k.confidence < 50) ∧ k ∈ st.knowledge) ∧
    List.Sorted weakLe (getWeakAreas st limit) ∧
    (getWeakAreas st limit).length = min limit (st.knowledge.filter weakPred).length ∧
    ((st.knowledge.filter weakPred).length ≤ limit →
      ∀ k ∈ st.knowledge, weakPred k = true → k ∈ getWeakAreas st limit) ∧
    getWeakAreas st = getWeakAreas st 10 ∧
    (getWeakAreas c9Chat 10).map (fun k => (k.mastery_level, k.confidence)) =
      [(59, 90), (60, 49)] := by
  refine ⟨?_, ?_, ?_, ?_, rfl, by decide⟩
  · intro k hk
    have hk1 : k ∈ List.insertionSort weakLe (st.knowledge.filter weakPred) :=
      List.mem_of_mem_take hk
    have hk2 : k ∈ st.knowledge.filter weakPred :=
      (List.perm_insertionSort weakLe _).mem_iff.mp hk1
    have hk3 := List.mem_filter.mp hk2
    refine ⟨?_, hk3.1⟩
    have hp := hk3.2
    simp only [weakPred, Bool.or_eq_true, decide_eq_true_eq] at hp
    exact hp
  · exact (List.sorted_insertionSort weakLe _).sublist (List.take_sublist _ _)
  · rw [getWeakAreas, List.length_take, (List.perm_insertionSort weakLe _).length_eq]
  · intro hlen k hk hp
    have hk2 : k ∈ st.knowledge.filter weakPred := List.mem_filter.mpr ⟨hk, hp⟩
    have hk1 : k ∈ List.insertionSort weakLe (st.knowledge.filter weakPred) :=
      (List.perm_insertionSort weakLe _).mem_iff.mpr hk2
    have hall : (List.insertionSort weakLe (st.knowledge.filter weakPred)).take limit =
        List.insertionSort weakLe (st.knowledge.filter weakPred) :=
      List.take_of_length_le (by rw [(List.perm_insertionSort weakLe _).length_eq]; exact hlen)
    rw [getWeakAreas, hall]
    exact hk1

/-- C9 witness: the theorem applied at the boundary state, instantiating the
membership clause on the (59, 90) row. -/
theorem c9_weak_areas_query_witness :
    ({ subject := "s", topic := "t59c90", mastery_level := 59, confidence := 90 } : KnowledgeRow)
        ∈ getWeakAreas c9Chat 10 ∧
    ((({ subject := "s", topic := "t59c90", mastery_level := 59, confidence := 90 } : KnowledgeRow).mastery_level < 60 ∨
      (({ subject := "s", topic := "t59c90", mastery_level := 59, confidence := 90 } : KnowledgeRow)).confidence < 50) ∧
      ({ subject := "s", topic := "t59c90", mastery_level := 59, confidence := 90 } : KnowledgeRow)
        ∈ c9Chat.knowledge) :=
  ⟨by decide,
   (c9_weak_areas_query c9Chat 10).1
     { subject := "s", topic := "t59c90", mastery_level := 59, confidence := 90 } (by decide)⟩

/-! ## C10: a topic-less submission never touches knowledge -/

/-- C10: when the optional topic is absent, `recordQuiz` appends the ledger row
(with a null topic) and performs no knowledge update at all — the resulting
state differs from the input only in the quiz ledger, so every knowledge entry
is left unchanged. -/
theorem c10_no_topic_no_knowledge_update (st : Chat) (data : QuizResult) (now : Nat)
    (htopic : data.topic = none)
    (htype : quizTypeValues.contains data.quizType = true)
    (h0 : 0 ≤ data.score) (h100 : data.score ≤ 100) :
    recordQuiz st data now =
      .ok { st with quizHistory := st.quizHistory ++ [quizRowOf data now] } ∧
    (quizRowOf data now).topic = none ∧
    ({ st with quizHistory := st.quizHistory ++ [quizRowOf data now] } : Chat).knowledge =
      st.knowledge := by
  have hscore : (data.score < 0 || 100 < data.score) = false := by
    simp only [Bool.or_eq_false_iff, decide_eq_false_iff_not, not_lt]
    exact ⟨h0, h100⟩
  refine ⟨?_, ?_, rfl⟩
  · unfold recordQuiz
    simp only [htype, htopic, hscore, Bool.true_eq_false, Bool.false_eq_true,
      if_false, if_true]
  · show data.topic = none
    exact htopic

/-- C10 witness: the theorem applied to a concrete topic-less submission. -/
theorem c10_no_topic_no_knowledge_update_witness :
    c10wData.topic = none ∧
    recordQuiz c3wChat c10wData 5 =
      .ok { c3wChat with quizHistory := c3wChat.quizHistory ++ [quizRowOf c10wData 5] } :=
  ⟨by decide,
   (c10_no_topic_no_knowledge_update c3wChat c10wData 5 rfl
      (by decide) (by decide) (by decide)).1⟩

end StudyAgent
